import Mathlib

/-!
Verification development for the ReAct tool-agent orchestration core
(`llm_agent/agent.py`, `llm_agent/server.py`).

The Python code parses model output with `re` patterns of the shape
`LABEL:\s*(.*?)(?=NEXT_LABELS|$)` under `re.DOTALL` (no `re.MULTILINE`).
We embed those regexes exactly:
- a match starts at an occurrence of the literal label,
- `\s*` greedily consumes whitespace,
- the lazy group extends to the first position where one of the lookahead
  literals starts, or to the `$` position (end of string, or just before a
  single trailing newline), whichever comes first,
- `finditer` resumes scanning at the end of the previous match (the
  lookahead consumes nothing, so at the end of the group).

`json.loads` / `json.dumps` are external stdlib: decoding is modelled as a
parameter `dec : String → Option Json` (a failing decode is `none`, which the
source maps to keeping the raw string), and dumping by an explicit serializer.
The language-model backend `LLMModel.generate` is opaque and modelled as a
parameter `g : String → String`.
-/

set_option maxRecDepth 200000

namespace LlmAgent

/-- ASCII whitespace as matched by `\s` and stripped by `str.strip()`. -/
def isWS (c : Char) : Bool :=
  c == ' ' || c == '\t' || c == '\n' || c == '\r' || c == Char.ofNat 11 || c == Char.ofNat 12

/-- Python `str.strip()`: drop leading and trailing whitespace. -/
def strip (l : List Char) : List Char :=
  ((l.dropWhile isWS).reverse.dropWhile isWS).reverse

/-- Pack a character list back into a `String`. -/
def strS (l : List Char) : String := String.mk l

/-- Index of the first occurrence of `needle` in the list (needles here are
the nonempty label literals). -/
def findSub (needle : List Char) : List Char → Option Nat
  | [] => none
  | c :: rest =>
    if needle.isPrefixOf (c :: rest) then some 0
    else (findSub needle rest).map (· + 1)

/-- Whether `needle` occurs in `hay`. -/
def containsSub (needle hay : List Char) : Bool := (findSub needle hay).isSome

/-- Suffix of the list just after the first occurrence of `needle`
(for nonempty `needle`). -/
def findAfter (needle : List Char) : List Char → Option (List Char)
  | [] => none
  | c :: rest =>
    if needle.isPrefixOf (c :: rest) then some (rest.drop (needle.length - 1))
    else findAfter needle rest

/-- Position where `$` first succeeds in `s` (Python `$` without
`re.MULTILINE`: end of string, or just before one trailing newline). -/
def dollarCut (s : List Char) : Nat :=
  match s.getLast? with
  | some c => if c == '\n' then s.length - 1 else s.length
  | none => 0

/-- Where the lazy group `(.*?)(?=terms|$)` stops inside `s`: the first
position at which some lookahead literal starts, or the `$` position,
whichever is smaller. -/
def stopAt (terms : List (List Char)) (s : List Char) : Nat :=
  terms.foldl (fun acc t =>
    match findSub t s with
    | some p => Nat.min acc p
    | none => acc) (dollarCut s)

theorem dropWhile_len_le (p : Char → Bool) :
    ∀ l : List Char, (l.dropWhile p).length ≤ l.length := by
  intro l
  induction l with
  | nil => simp [List.dropWhile]
  | cons c rest ih =>
    rw [List.dropWhile]
    cases hp : p c
    · exact Nat.le_refl _
    · exact Nat.le_trans ih (Nat.le_succ _)

theorem findAfter_length {needle : List Char} :
    ∀ {l after : List Char}, findAfter needle l = some after → after.length < l.length := by
  intro l
  induction l with
  | nil => intro after h; simp [findAfter] at h
  | cons c rest ih =>
    intro after h
    rw [findAfter] at h
    by_cases hp : needle.isPrefixOf (c :: rest) = true
    · rw [if_pos hp] at h
      cases h
      simp only [List.length_drop, List.length_cons]
      omega
    · rw [if_neg hp] at h
      exact Nat.lt_trans (ih h) (Nat.lt_succ_self _)

/-- Fuel-driven scanner behind `finditer`; each successful match consumes at
least one character, so fuel `text.length + 1` is always enough
(`findAfter_length`). Structural recursion keeps it kernel-reducible. -/
def finditerGo (label : List Char) (terms : List (List Char)) :
    Nat → List Char → List (List Char)
  | 0, _ => []
  | fuel + 1, text =>
    match findAfter label text with
    | none => []
    | some after =>
      let s := after.dropWhile isWS
      let stop := stopAt terms s
      s.take stop :: finditerGo label terms fuel (s.drop stop)

/-- Model of `re.finditer(LABEL + whitespace + lazy group + lookahead, text)`
returning the raw group texts in order. -/
def finditer (label : List Char) (terms : List (List Char)) (text : List Char) :
    List (List Char) :=
  finditerGo label terms (text.length + 1) text

/-- Literal of `THINKING_PATTERN`. -/
def labelTHINKING : List Char := "THINKING:".data
/-- Literal of `ACTION_PATTERN`. -/
def labelACTION : List Char := "ACTION:".data
/-- Literal of `ACTION_INPUT_PATTERN`. -/
def labelINPUT : List Char := "ACTION_INPUT:".data
/-- Literal of `OBSERVATION_PATTERN`. -/
def labelOBS : List Char := "OBSERVATION:".data
/-- Literal of `FINAL_ANSWER_PATTERN`. -/
def labelFINAL : List Char := "FINAL_ANSWER:".data

/-- JSON values as produced by `json.loads` (numbers simplified to `Int`;
the decoder is a parameter, so only the shape matters). -/
inductive Json where
  | null
  | bool (b : Bool)
  | num (n : Int)
  | str (s : String)
  | arr (elems : List Json)
  | obj (fields : List (String × Json))
deriving Repr

/-- Decoder parameter standing for `json.loads` (`none` = `JSONDecodeError`). -/
def Decoder := String → Option Json

/-- Value stored in an action's `input` slot: the JSON decode when it
succeeded, otherwise the raw (stripped) span text. -/
inductive PyInput where
  | json (v : Json)
  | raw (s : String)
deriving Repr

/-- One entry of `parsed["actions"]`. -/
structure PAction where
  tool : String
  input : Option PyInput
  observation : Option String
deriving Repr

/-- Result dictionary of `ToolAgent.parse_react_output`. -/
structure Turn where
  thinking : List String
  actions : List PAction
  final_answer : Option String
  raw_output : String
deriving Repr

/-- Input resolution for one `ACTION_INPUT` span: strip, try the decoder,
fall back to the raw stripped text (`agent.py` lines 96-102). -/
def mkInput (dec : Decoder) (span : List Char) : PyInput :=
  let t := strS (strip span)
  match dec t with
  | some v => PyInput.json v
  | none => PyInput.raw t

/-- Positional alignment of action, action-input and observation spans
(`agent.py` lines 90-113): the i-th action takes the i-th input span and
i-th observation span when they exist, else `none`. -/
def buildActions (dec : Decoder) :
    List (List Char) → List (List Char) → List (List Char) → List PAction
  | [], _, _ => []
  | a :: as, ins, obs =>
    { tool := strS (strip a),
      input := ins.head?.map (mkInput dec),
      observation := obs.head?.map (fun o => strS (strip o)) } ::
    buildActions dec as ins.tail obs.tail

/-- Thinking spans: stripped, empty ones dropped (`agent.py` lines 80-83). -/
def thinkingOf (cs : List Char) : List String :=
  ((finditer labelTHINKING [labelACTION, labelFINAL] cs).map strip).filterMap
    (fun t => if t.isEmpty then none else some (strS t))

/-- Final answer: `re.search(FINAL_ANSWER_PATTERN, text, re.DOTALL)` takes the
first occurrence of the label; the lazy group runs to `$`
(`agent.py` lines 116-118). -/
def finalAnswerOf (cs : List Char) : Option String :=
  (findAfter labelFINAL cs).map (fun after =>
    let s := after.dropWhile isWS
    strS (strip (s.take (dollarCut s))))

/-- Embedding of `ToolAgent.parse_react_output`. The Python function is
total (parsing never raises); so is this embedding. -/
def parseReact (dec : Decoder) (text : String) : Turn :=
  let cs := text.data
  { thinking := thinkingOf cs,
    actions := buildActions dec
      (finditer labelACTION [labelINPUT] cs)
      (finditer labelINPUT [labelOBS] cs)
      (finditer labelOBS [labelTHINKING, labelACTION, labelFINAL] cs),
    final_answer := finalAnswerOf cs,
    raw_output := text }

/-- Executable bound to a registered tool name. A Python tool receives the
parsed input (possibly `None`) and either returns an observation string or
raises; raising is modelled by `Except.error` carrying `str(e)`. -/
def ToolFn := Option PyInput → Except String String

/-- The `self.tools` dict: insertion-ordered, unique keys. -/
def Registry := List (String × ToolFn)

/-- Python dict assignment `d[k] = v`: overwrite in place, else append. -/
def dictUpdate (l : Registry) (k : String) (v : ToolFn) : Registry :=
  match l with
  | [] => [(k, v)]
  | (k0, v0) :: rest => if k0 == k then (k0, v) :: rest else (k0, v0) :: dictUpdate rest k v

/-- Python dict membership/lookup on `self.tools`. -/
def lookupTool (reg : Registry) (n : String) : Option ToolFn :=
  match reg with
  | [] => none
  | (k, f) :: rest => if k == n then some f else lookupTool rest n

/-- Rendering of `', '.join(self.tools.keys())`. -/
def joinKeys (reg : Registry) : String :=
  String.intercalate ", " (reg.map (fun kv => kv.fst))

/-- Hexadecimal digit for `\u00XX` escapes. -/
def hexDigit (n : Nat) : Char :=
  if n < 10 then Char.ofNat (48 + n) else Char.ofNat (87 + n)

/-- JSON escaping of one character (`json.dumps` with `ensure_ascii=False`). -/
def escChar (c : Char) : String :=
  if c == '"' then "\\\""
  else if c == '\\' then "\\\\"
  else if c == '\n' then "\\n"
  else if c == '\t' then "\\t"
  else if c == '\r' then "\\r"
  else if c == Char.ofNat 8 then "\\b"
  else if c == Char.ofNat 12 then "\\f"
  else if c.toNat < 32 then
    "\\u00" ++ strS [hexDigit (c.toNat / 16), hexDigit (c.toNat % 16)]
  else strS [c]

/-- `json.dumps` of a string. -/
def dumpsStr (s : String) : String :=
  "\"" ++ String.join (s.data.map escChar) ++ "\""

mutual

/-- `json.dumps(v, ensure_ascii=False)` with default separators. -/
def dumpsJson : Json → String
  | .null => "null"
  | .bool true => "true"
  | .bool false => "false"
  | .num n => toString n
  | .str s => dumpsStr s
  | .arr xs => "[" ++ dumpsArr xs ++ "]"
  | .obj fs => "\x7b" ++ dumpsObj fs ++ "\x7d"

/-- Comma-joined array elements. -/
def dumpsArr : List Json → String
  | [] => ""
  | [x] => dumpsJson x
  | x :: y :: xs => dumpsJson x ++ ", " ++ dumpsArr (y :: xs)

/-- Comma-joined object fields. -/
def dumpsObj : List (String × Json) → String
  | [] => ""
  | [(k, v)] => dumpsStr k ++ ": " ++ dumpsJson v
  | (k, v) :: kv :: xs => dumpsStr k ++ ": " ++ dumpsJson v ++ ", " ++ dumpsObj (kv :: xs)

end

/-- `json.dumps(tool_input, ensure_ascii=False)` where `tool_input` is the
action's input slot (`None` dumps to `null`). -/
def dumpsInput : Option PyInput → String
  | none => "null"
  | some (.json v) => dumpsJson v
  | some (.raw s) => dumpsStr s

/-- Continuation rendering of one executed action
(`agent.py` lines 156-158). -/
def contLine (toolName : String) (inp : Option PyInput) (obs : String) : String :=
  "ACTION: " ++ toolName ++ "\n" ++
  "ACTION_INPUT: " ++ dumpsInput inp ++ "\n" ++
  "OBSERVATION: " ++ obs ++ "\n"

/-- Error observation for an unregistered tool (`agent.py` line 144). -/
def notFoundMsg (reg : Registry) (toolName : String) : String :=
  "Error: Tool \x27" ++ toolName ++ "\x27 not found. Available tools: " ++ joinKeys reg

/-- Error observation for a raising tool (`agent.py` line 152). -/
def execFailMsg (toolName e : String) : String :=
  "Error executing tool \x27" ++ toolName ++ "\x27: " ++ e

/-- The `for`/`break` scan of `execute_tools` (`agent.py` lines 134-161):
skip actions that already carry an observation, process the first one
without, then stop. In the unknown-tool branch the Python code does NOT
write the observation back into the action — it only renders it into the
continuation text; in the call/except branches it writes it back. -/
def execFirst (reg : Registry) : List PAction → List PAction × String
  | [] => ([], "")
  | a :: rest =>
    match a.observation with
    | some _ =>
      let r := execFirst reg rest
      (a :: r.1, r.2)
    | none =>
      match lookupTool reg a.tool with
      | none => (a :: rest, contLine a.tool a.input (notFoundMsg reg a.tool))
      | some f =>
        match f a.input with
        | .ok obs =>
          ({ a with observation := some obs } :: rest, contLine a.tool a.input obs)
        | .error e =>
          let obs := execFailMsg a.tool e
          ({ a with observation := some obs } :: rest, contLine a.tool a.input obs)

/-- Embedding of `ToolAgent.execute_tools`. -/
def executeTools (reg : Registry) (turn : Turn) : Turn × String :=
  let r := execFirst reg turn.actions
  ({ turn with actions := r.1 }, r.2)

/-- Python truthiness of `not parsed["final_answer"]`: `None` and the empty
string are both falsy. -/
def finalFalsy : Option String → Bool
  | none => true
  | some s => s.isEmpty

/-- Loop test `any(action["observation"] is None for action in ...)`. -/
def pendingB (t : Turn) : Bool :=
  t.actions.any (fun a => a.observation.isNone)

/-- The `while` condition of `ToolAgent.run` (`agent.py` lines 197-199). -/
def loopGuard (parsed : Turn) (iters maxIter : Nat) : Bool :=
  finalFalsy parsed.final_answer && decide (iters < maxIter) && pendingB parsed

/-- The `while` loop of `ToolAgent.run` (`agent.py` lines 196-217), with
state (response, parsed, iterations). `fuel` is only a structural-recursion
device: calls from `agentRun` pass `fuel = maxIter`, and since the guard
requires `iters < maxIter` and every pass increments `iters`, the
fuel-exhausted arm is never taken from those calls. Returns the final
parsed turn, response text and iteration count. -/
def runLoop (g : String → String) (reg : Registry) (dec : Decoder)
    (prompt : String) (maxIter : Nat) :
    Nat → String → Turn → Nat → Turn × String × Nat
  | fuel, response, parsed, iters =>
    if loopGuard parsed iters maxIter then
      let ec := executeTools reg parsed
      if ec.2 = "" then (ec.1, response, iters)
      else
        match fuel with
        | 0 => (parsed, response, iters)
        | fuel' + 1 =>
          let nextResponse := g (prompt ++ response ++ "\n" ++ ec.2)
          let response2 := response ++ "\n" ++ ec.2 ++ nextResponse
          runLoop g reg dec prompt maxIter fuel' response2 (parseReact dec response2) (iters + 1)
    else (parsed, response, iters)

/-- Result dictionary of `ToolAgent.run` (the serving layer additionally
attaches `model_used`, which only names the external model instance). -/
structure RunResult where
  query : String
  thinking : List String
  actions : List PAction
  final_answer : Option String
  raw_output : String
deriving Repr

/-- Schema entry of `parameters` (`{type, description}` per parameter). -/
structure ParamSpec where
  type : String
  description : String
deriving Repr

/-- One entry of `self.tool_definitions`. -/
structure ToolDef where
  name : String
  description : String
  parameters : List (String × ParamSpec)
  output : String
deriving Repr

/-- One conversation-history turn (`{user?, assistant?}`). -/
structure ConvTurn where
  user : Option String
  assistant : Option String

/-- One few-shot example for `format_react_example` (the Python code reads
`example['action_input']` unconditionally whenever an action is present, so
it is a plain string here). -/
structure FewShot where
  query : String
  thinking : Option String
  action : Option String
  action_input : String
  observation : Option String
  final_answer : Option String

/-- Python `repr` of a simple string (as produced by `str()` on a dict). -/
def pyReprStr (s : String) : String := "\x27" ++ s ++ "\x27"

/-- Python `str()` of one parameter-spec dict. -/
def pyReprParamSpec (p : ParamSpec) : String :=
  "\x7b\x27type\x27: " ++ pyReprStr p.type ++ ", \x27description\x27: " ++ pyReprStr p.description ++ "\x7d"

/-- Python `str()` of the `parameters` dict interpolated by the template. -/
def pyReprParams (ps : List (String × ParamSpec)) : String :=
  "\x7b" ++ String.intercalate ", " (ps.map (fun kv => pyReprStr kv.1 ++ ": " ++ pyReprParamSpec kv.2)) ++ "\x7d"

/-- Embedding of `prompts.get_system_prompt`. -/
def getSystemPrompt (tools : List ToolDef) : String :=
  let toolDescriptions := String.intercalate "\n\n" (tools.map (fun t =>
    "Tool: " ++ t.name ++ "\n" ++
    "Description: " ++ t.description ++ "\n" ++
    "Parameters: " ++ pyReprParams t.parameters ++ "\n" ++
    "Output: " ++ t.output))
  "You are an AI assistant that can use tools to answer questions. \n" ++
  "When you need to use a tool, format your response using the specific syntax below.\n" ++
  "First, think step by step about how to solve the problem, then decide if you need to use a tool.\n\n" ++
  "Available tools:\n" ++ toolDescriptions ++ "\n\n" ++
  "To use a tool, respond with:\n" ++
  "THINKING: Think step by step about what you need to do.\n" ++
  "ACTION: <tool_name>\n" ++
  "ACTION_INPUT: \x7b\n  \"parameter1\": \"value1\",\n  \"parameter2\": \"value2\"\n\x7d\n\n" ++
  "When you receive the result from a tool, continue with:\n" ++
  "OBSERVATION: <result from the tool>\n" ++
  "THINKING: Think about what the result means and what to do next.\n\n" ++
  "If you need to use multiple tools, repeat the ACTION/ACTION_INPUT/OBSERVATION sequence.\n" ++
  "When you have the final answer and don\x27t need any more tools, respond with:\n" ++
  "FINAL_ANSWER: your detailed final answer\n\n" ++
  "Remember:\n" ++
  "1. Follow the exact format for tool use\n" ++
  "2. Think through the problem carefully before using tools\n" ++
  "3. Always use proper JSON for ACTION_INPUT\n" ++
  "4. Don\x27t make up tool results or guess what a tool would return\n" ++
  "5. Use only the tools described above\n"

/-- Embedding of `prompts.format_user_query`. -/
def formatUserQuery (query : String) (hist : Option (List ConvTurn)) : String :=
  let historyText :=
    match hist with
    | none => ""
    | some hs => String.join (hs.map (fun h =>
        (match h.user with | some u => "User: " ++ u ++ "\n" | none => "") ++
        (match h.assistant with | some a => "Assistant: " ++ a ++ "\n" | none => "")))
  historyText ++ "User: " ++ query ++ "\n\nAssistant:"

/-- Embedding of `prompts.format_react_example` (Python truthiness: a present
but empty field is skipped). -/
def formatReactExample (e : FewShot) : String :=
  "User: " ++ e.query ++ "\n\nAssistant: " ++
  (match e.thinking with
   | some t => if t.isEmpty then "" else "THINKING: " ++ t ++ "\n"
   | none => "") ++
  (match e.action with
   | some a => if a.isEmpty then "" else "ACTION: " ++ a ++ "\nACTION_INPUT: " ++ e.action_input ++ "\n"
   | none => "") ++
  (match e.observation with
   | some o => if o.isEmpty then "" else "OBSERVATION: " ++ o ++ "\n"
   | none => "") ++
  (match e.final_answer with
   | some f => if f.isEmpty then "" else "FINAL_ANSWER: " ++ f ++ "\n"
   | none => "")

/-- Embedding of `prompts.create_full_prompt` (a `None` or empty example list
is falsy and contributes nothing). -/
def createFullPrompt (query : String) (tools : List ToolDef)
    (examples : Option (List FewShot)) (hist : Option (List ConvTurn)) : String :=
  let examplesText :=
    match examples with
    | some (e :: es) =>
      "\n\nHere are some examples of how to use tools:\n\n" ++
      String.intercalate "\n\n" ((e :: es).map formatReactExample)
    | _ => ""
  getSystemPrompt tools ++ examplesText ++ "\n\n" ++ formatUserQuery query hist

/-- Embedding of `ToolAgent.run`: build the prompt, make the first
generation call, then iterate `runLoop`. The generation backend is the
opaque parameter `g`. Also returns the loop's final iteration count. -/
def agentRun (g : String → String) (tools : Registry) (defs : List ToolDef)
    (dec : Decoder) (query : String) (hist : Option (List ConvTurn))
    (examples : Option (List FewShot)) (maxIter : Nat) : RunResult × Nat :=
  let prompt := createFullPrompt query defs examples hist
  let response := g prompt
  let parsed := parseReact dec response
  let r := runLoop g tools dec prompt maxIter maxIter response parsed 0
  ({ query := query, thinking := r.1.thinking, actions := r.1.actions,
     final_answer := r.1.final_answer, raw_output := r.1.raw_output }, r.2.2)

/-- Server-side agent state: executable bindings plus schema list
(`ToolAgent.__init__` / `register_tool`). -/
structure Agent where
  tools : Registry
  tool_definitions : List ToolDef

/-- Embedding of `ToolAgent.register_tool`. -/
def registerTool (a : Agent) (name : String) (f : ToolFn) (descr : String)
    (params : List (String × ParamSpec)) (outd : String) : Agent :=
  { tools := dictUpdate a.tools name f,
    tool_definitions := a.tool_definitions ++ [⟨name, descr, params, outd⟩] }

/-- Body of the `/agent` request (`AgentQuery`), without the external
`model_name` switch. -/
structure AgentQuery where
  query : String
  toolsFilter : Option (List String)
  history : Option (List ConvTurn)
  examples : Option (List FewShot)

/-- First-occurrence-ordered keys of the `all_tools` dict built in
`run_agent` (fuel makes the recursion structural; each step strictly
shrinks the list). -/
def dedupKeysGo : Nat → List String → List String
  | 0, _ => []
  | _ + 1, [] => []
  | fuel + 1, x :: xs => x :: dedupKeysGo fuel (xs.filter (fun y => !(y == x)))

/-- Deduplicated key list, keeping first occurrences. -/
def dedupKeys (l : List String) : List String := dedupKeysGo (l.length + 1) l

/-- Lookup in the `all_tools` dict (`{tool["name"]: tool for ...}`): a later
duplicate overwrites, so the last matching definition wins. -/
def lastDef (defs : List ToolDef) (n : String) : Option ToolDef :=
  (defs.filter (fun d => d.name == n)).getLast?

/-- Error detail raised for an unknown requested tool name
(`server.py` lines 289-292). -/
def filterErrMsg (defs : List ToolDef) (n : String) : String :=
  "Tool \x27" ++ n ++ "\x27 not found. Available tools: " ++
  String.intercalate ", " (dedupKeys (defs.map (fun d => d.name)))

/-- The subset-filtering loop of `run_agent` (`server.py` lines 281-296):
collect the requested definitions in request order, fail at the first
name that is not registered. -/
def filterTools (defs : List ToolDef) : List String → Except String (List ToolDef)
  | [] => .ok []
  | n :: rest =>
    match lastDef defs n with
    | some d => (filterTools defs rest).map (fun l => d :: l)
    | none => .error (filterErrMsg defs n)

/-- Embedding of the `/agent` handler `run_agent` (default-agent branch):
`query.tools` filters only `agent.tool_definitions` (the schema view used
by the prompt builder); `agent.tools` — the name-to-executable mapping used
by `execute_tools` — is passed through unchanged. A falsy (absent or empty)
filter leaves the definitions as they are. `max_iterations` keeps
`ToolAgent.run`'s default of 10. -/
def runAgent (g : String → String) (dec : Decoder) (a : Agent) (q : AgentQuery) :
    Except String (RunResult × Nat) :=
  match q.toolsFilter with
  | some (n :: rest) =>
    match filterTools a.tool_definitions (n :: rest) with
    | .error e => .error e
    | .ok filtered => .ok (agentRun g a.tools filtered dec q.query q.history q.examples 10)
  | _ => .ok (agentRun g a.tools a.tool_definitions dec q.query q.history q.examples 10)

/-! Shared concrete instances used by witnesses and counterexamples. -/

/-- Decoder instance on which every decode fails (every input stays raw). -/
def decNone : Decoder := fun _ => none

/-! Structural lemmas about the parser's positional alignment. -/

theorem buildActions_length (dec : Decoder) :
    ∀ (as ins obs : List (List Char)),
      (buildActions dec as ins obs).length = as.length := by
  intro as
  induction as with
  | nil => intro ins obs; rfl
  | cons a rest ih =>
    intro ins obs
    simp only [buildActions, List.length_cons, ih]

theorem buildActions_getElem (dec : Decoder) :
    ∀ (as ins obs : List (List Char)) (i : Nat),
      (buildActions dec as ins obs)[i]? =
        (as[i]?).map (fun a =>
          { tool := strS (strip a),
            input := (ins[i]?).map (mkInput dec),
            observation := (obs[i]?).map (fun o => strS (strip o)) : PAction}) := by
  intro as
  induction as with
  | nil => intro ins obs i; rfl
  | cons a rest ih =>
    intro ins obs i
    cases i with
    | zero =>
      simp only [buildActions, List.getElem?_cons_zero, Option.map_some,
        List.head?_eq_getElem?]
      rfl
    | succ j =>
      simp only [buildActions, List.getElem?_cons_succ, ih,
        List.getElem?_tail]

/-- The actions list of a parsed turn, element by element. -/
theorem parseReact_actions_getElem (dec : Decoder) (text : String) (i : Nat) :
    (parseReact dec text).actions[i]? =
      ((finditer labelACTION [labelINPUT] text.data)[i]?).map (fun a =>
        { tool := strS (strip a),
          input := ((finditer labelINPUT [labelOBS] text.data)[i]?).map (mkInput dec),
          observation := ((finditer labelOBS [labelTHINKING, labelACTION, labelFINAL] text.data)[i]?).map
            (fun o => strS (strip o)) : PAction}) :=
  buildActions_getElem dec _ _ _ i

/-- C4: for every input text with N `ACTION` spans and M ≤ N `ACTION_INPUT`
spans (span counts as recovered by the pattern scanners), `parse` returns a
turn with exactly N actions; the i-th action pairs with the i-th action-input
span and i-th observation span, missing indices yielding `none`; the first M
actions carry a resolved (structured or raw) input and the remaining N−M a
null input. Parsing is a total function, so it never raises. -/
theorem c4_positional_alignment (dec : Decoder) (text : String)
    (hMN : (finditer labelINPUT [labelOBS] text.data).length ≤
      (finditer labelACTION [labelINPUT] text.data).length) :
    (parseReact dec text).actions.length =
      (finditer labelACTION [labelINPUT] text.data).length
    ∧ (∀ i : Nat, (parseReact dec text).actions[i]? =
        ((finditer labelACTION [labelINPUT] text.data)[i]?).map (fun a =>
          { tool := strS (strip a),
            input := ((finditer labelINPUT [labelOBS] text.data)[i]?).map (mkInput dec),
            observation :=
              ((finditer labelOBS [labelTHINKING, labelACTION, labelFINAL] text.data)[i]?).map
                (fun o => strS (strip o)) : PAction}))
    ∧ (∀ i : Nat, i < (finditer labelINPUT [labelOBS] text.data).length →
        ∃ act : PAction, (parseReact dec text).actions[i]? = some act ∧ act.input.isSome = true)
    ∧ (∀ i : Nat, (finditer labelINPUT [labelOBS] text.data).length ≤ i →
        ∀ act : PAction, (parseReact dec text).actions[i]? = some act → act.input = none) := by
  refine ⟨buildActions_length dec _ _ _, parseReact_actions_getElem dec text, ?_, ?_⟩
  · intro i hi
    have hiN : i < (finditer labelACTION [labelINPUT] text.data).length :=
      Nat.lt_of_lt_of_le hi hMN
    have hact : (parseReact dec text).actions[i]? = some
        { tool := strS (strip ((finditer labelACTION [labelINPUT] text.data).get ⟨i, hiN⟩)),
          input := ((finditer labelINPUT [labelOBS] text.data)[i]?).map (mkInput dec),
          observation :=
            ((finditer labelOBS [labelTHINKING, labelACTION, labelFINAL] text.data)[i]?).map
              (fun o => strS (strip o)) } := by
      rw [parseReact_actions_getElem dec text i, List.getElem?_eq_getElem hiN]
      rfl
    refine ⟨_, hact, ?_⟩
    simp only [List.getElem?_eq_getElem hi]
    rfl
  · intro i hi act hact
    rw [parseReact_actions_getElem dec text i] at hact
    cases hA : (finditer labelACTION [labelINPUT] text.data)[i]? with
    | none => rw [hA] at hact; cases hact
    | some a =>
      rw [hA] at hact
      cases hact
      simp only [List.getElem?_eq_none hi]
      rfl

/-- Concrete input for the C4 witness: two ACTION spans, one ACTION_INPUT
span. -/
def cw4 : String := "ACTION: a\nACTION_INPUT: 1\nOBSERVATION: o\nACTION: b\nTHINKING: x"

/-- Witness for C4 at a concrete input with N = 2, M = 1. -/
theorem c4_positional_alignment_witness :
    (parseReact decNone cw4).actions.length =
      (finditer labelACTION [labelINPUT] cw4.data).length
    ∧ (∃ act : PAction, (parseReact decNone cw4).actions[0]? = some act ∧ act.input.isSome = true)
    ∧ (∀ act : PAction, (parseReact decNone cw4).actions[1]? = some act → act.input = none) := by
  have h := c4_positional_alignment decNone cw4 (by decide)
  exact ⟨h.1, h.2.2.1 0 (by decide), h.2.2.2 1 (by decide)⟩

/-- C9: every `ACTION_INPUT` span is stripped and then decoded as JSON; a
successful decode becomes the structured input, a failing decode leaves the
raw stripped span text; `mkInput` (and the whole parse) is total, so the
decode step never raises. -/
theorem c9_input_decode_fallback (dec : Decoder) (text : String) (i : Nat) (span : List Char)
    (hspan : (finditer labelINPUT [labelOBS] text.data)[i]? = some span)
    (hiN : i < (finditer labelACTION [labelINPUT] text.data).length) :
    ∃ act : PAction, (parseReact dec text).actions[i]? = some act
      ∧ act.input = some (mkInput dec span)
      ∧ (∀ v : Json, dec (strS (strip span)) = some v → mkInput dec span = PyInput.json v)
      ∧ (dec (strS (strip span)) = none → mkInput dec span = PyInput.raw (strS (strip span))) := by
  have hact : (parseReact dec text).actions[i]? = some
      { tool := strS (strip ((finditer labelACTION [labelINPUT] text.data).get ⟨i, hiN⟩)),
        input := ((finditer labelINPUT [labelOBS] text.data)[i]?).map (mkInput dec),
        observation :=
          ((finditer labelOBS [labelTHINKING, labelACTION, labelFINAL] text.data)[i]?).map
            (fun o => strS (strip o)) } := by
    rw [parseReact_actions_getElem dec text i, List.getElem?_eq_getElem hiN]
    rfl
  refine ⟨_, hact, ?_, ?_, ?_⟩
  · simp only [hspan]
    rfl
  · intro v hv
    simp only [mkInput, hv]
  · intro hv
    simp only [mkInput, hv]

/-- Concrete input for the C9 witness. -/
def cw9 : String := "ACTION: a\nACTION_INPUT: xyz\n"

/-- Witness for C9 at a concrete input whose span fails to decode. -/
theorem c9_input_decode_fallback_witness :
    ∃ act : PAction, (parseReact decNone cw9).actions[0]? = some act
      ∧ act.input = some (mkInput decNone "xyz".data)
      ∧ mkInput decNone "xyz".data = PyInput.raw "xyz" := by
  obtain ⟨act, h1, h2, _, h4⟩ :=
    c9_input_decode_fallback decNone cw9 0 ("xyz".data) (by decide) (by decide)
  exact ⟨act, h1, h2, h4 rfl⟩

/-! Lemmas about the `execute_tools` scan. -/

/-- Actions that already carry an observation are skipped unchanged: the
scan passes over them and processes the remainder. -/
theorem execFirst_skip (reg : Registry) :
    ∀ (done : List PAction), (∀ b ∈ done, b.observation.isSome = true) →
    ∀ (l : List PAction),
      execFirst reg (done ++ l) = (done ++ (execFirst reg l).1, (execFirst reg l).2) := by
  intro done
  induction done with
  | nil => intro _ l; rfl
  | cons b bs ih =>
    intro hdone l
    have hb : b.observation.isSome = true := hdone b (List.mem_cons_self b bs)
    cases hbo : b.observation with
    | none => rw [hbo] at hb; cases hb
    | some o =>
      have ihl := ih (fun x hx => hdone x (List.mem_cons_of_mem b hx)) l
      simp only [List.cons_append, execFirst, hbo, List.append_eq, ihl]

/-- Nonemptiness of the continuation rendering. -/
theorem contLine_ne_empty (t : String) (i : Option PyInput) (o : String) :
    contLine t i o ≠ "" := by
  intro h
  have hlen := congrArg String.length h
  simp only [contLine, String.length_append] at hlen
  have l1 : ("ACTION: " : String).length = 8 := rfl
  have l2 : ("\n" : String).length = 1 := rfl
  have l3 : ("ACTION_INPUT: " : String).length = 14 := rfl
  have l4 : ("OBSERVATION: " : String).length = 13 := rfl
  have l5 : ("" : String).length = 0 := rfl
  omega

/-- C3: in an iteration with at least one pending action, `execute_tools`
processes exactly the first action in array order whose observation is
unset: every earlier (observed) action and every later action — pending or
not — is returned unchanged, and the continuation renders just that one
action. The nonempty continuation means the orchestrator does not break out
of the loop on this iteration. -/
theorem c3_first_pending_only (reg : Registry) (turn : Turn)
    (done : List PAction) (a : PAction) (rest : List PAction)
    (hacts : turn.actions = done ++ a :: rest)
    (hdone : ∀ b ∈ done, b.observation.isSome = true)
    (ha : a.observation = none) :
    ∃ (a2 : PAction) (obsStr : String),
      executeTools reg turn =
        ({ turn with actions := done ++ a2 :: rest }, contLine a.tool a.input obsStr)
      ∧ a2.tool = a.tool ∧ a2.input = a.input
      ∧ contLine a.tool a.input obsStr ≠ "" := by
  have hskip := execFirst_skip reg done hdone (a :: rest)
  cases hL : lookupTool reg a.tool with
  | none =>
    refine ⟨a, notFoundMsg reg a.tool, ?_, rfl, rfl, contLine_ne_empty _ _ _⟩
    simp only [executeTools, hacts, hskip, execFirst, ha, hL]
  | some f =>
    cases hf : f a.input with
    | ok obs =>
      refine ⟨{ a with observation := some obs }, obs, ?_, rfl, rfl, contLine_ne_empty _ _ _⟩
      simp only [executeTools, hacts, hskip, execFirst, ha, hL, hf]
    | error e =>
      refine ⟨{ a with observation := some (execFailMsg a.tool e) }, execFailMsg a.tool e,
        ?_, rfl, rfl, contLine_ne_empty _ _ _⟩
      simp only [executeTools, hacts, hskip, execFirst, ha, hL, hf]

/-- Registry with one tool, used by executor witnesses. -/
def regW : Registry := [("t", fun _ => Except.ok "ok")]

/-- Turn with one observed and two pending actions, used by the C3 witness. -/
def turnW : Turn :=
  { thinking := [],
    actions := [⟨"s", none, some "o"⟩, ⟨"t", some (PyInput.raw "1"), none⟩, ⟨"u", none, none⟩],
    final_answer := none,
    raw_output := "" }

/-- Witness for C3: with actions [observed, pending "t", pending "u"], only
the "t" action is processed and "u" stays untouched. -/
theorem c3_first_pending_only_witness :
    ∃ (a2 : PAction) (obsStr : String),
      executeTools regW turnW =
        ({ turnW with actions := [⟨"s", none, some "o"⟩] ++ a2 :: [⟨"u", none, none⟩] },
          contLine "t" (some (PyInput.raw "1")) obsStr)
      ∧ a2.tool = "t" ∧ a2.input = some (PyInput.raw "1")
      ∧ contLine "t" (some (PyInput.raw "1")) obsStr ≠ "" := by
  exact c3_first_pending_only regW turnW
    [⟨"s", none, some "o"⟩] ⟨"t", some (PyInput.raw "1"), none⟩ [⟨"u", none, none⟩]
    rfl (by intro b hb; simp only [List.mem_singleton] at hb; subst hb; rfl) rfl

/-- Parsed turn with a single pending action naming an unregistered tool. -/
def cturn5 : Turn := parseReact decNone "ACTION: ghost\nACTION_INPUT: 7\n"

/-- Counterexample to C5 as stated: with the single pending action naming
the unregistered tool "ghost", `execute_tools` leaves that action's
observation `none` — it does not become the error string — even though the
continuation text does carry the error. -/
theorem c5_claim_counterexample :
    (executeTools regW cturn5).1.actions.map (fun a => a.observation) = [none]
    ∧ (executeTools regW cturn5).2 =
        "ACTION: ghost\nACTION_INPUT: \"7\"\nOBSERVATION: Error: Tool \x27ghost\x27 not found. Available tools: t\n" :=
  ⟨rfl, rfl⟩

/-- C5 (amended): when the first pending action's tool name is not
registered, `execute_tools` returns the turn unchanged — the error is NOT
stored as that action's observation — while the continuation transcript fed
back to the generator carries the error string naming the missing tool and
enumerating all registered tool names (so the action only acquires the
error observation when the extended transcript is re-parsed); the
continuation is nonempty, so the run continues. -/
theorem c5_unknown_tool_continuation (reg : Registry) (turn : Turn)
    (done : List PAction) (a : PAction) (rest : List PAction)
    (hacts : turn.actions = done ++ a :: rest)
    (hdone : ∀ b ∈ done, b.observation.isSome = true)
    (ha : a.observation = none)
    (hL : lookupTool reg a.tool = none) :
    executeTools reg turn = (turn, contLine a.tool a.input (notFoundMsg reg a.tool))
    ∧ notFoundMsg reg a.tool =
        "Error: Tool \x27" ++ a.tool ++ "\x27 not found. Available tools: " ++
          String.intercalate ", " (reg.map (fun kv => kv.fst))
    ∧ contLine a.tool a.input (notFoundMsg reg a.tool) ≠ "" := by
  have hskip := execFirst_skip reg done hdone (a :: rest)
  refine ⟨?_, rfl, contLine_ne_empty _ _ _⟩
  simp only [executeTools, hacts, hskip, execFirst, ha, hL]
  rw [← hacts]

/-- Witness for C5 (amended) at the concrete unknown-tool turn. -/
theorem c5_unknown_tool_continuation_witness :
    executeTools regW cturn5 =
      (cturn5, contLine "ghost" (some (PyInput.raw "7")) (notFoundMsg regW "ghost"))
    ∧ notFoundMsg regW "ghost" =
        "Error: Tool \x27" ++ "ghost" ++ "\x27 not found. Available tools: " ++
          String.intercalate ", " (regW.map (fun kv => kv.fst))
    ∧ contLine "ghost" (some (PyInput.raw "7")) (notFoundMsg regW "ghost") ≠ "" :=
  c5_unknown_tool_continuation regW cturn5 [] ⟨"ghost", some (PyInput.raw "7"), none⟩ []
    rfl (by intro b hb; cases hb) rfl rfl

/-- Constant generator requesting the failing tool. -/
def gE : String → String := fun _ => "ACTION: boom\nACTION_INPUT: xy\n"

/-- Registry whose only tool always raises (`str(e) = "kaboom"`). -/
def regE : Registry := [("boom", fun _ => Except.error "kaboom")]

/-- C6: a raising tool invocation is caught and converted into an
observation string naming the tool and the failure detail; the observation
is stored on that action; the continuation is nonempty, and a concrete
two-iteration run with an always-failing tool completes both iterations and
returns normally instead of aborting. -/
theorem c6_tool_failure_caught (reg : Registry) (turn : Turn)
    (done : List PAction) (a : PAction) (rest : List PAction) (f : ToolFn) (e : String)
    (hacts : turn.actions = done ++ a :: rest)
    (hdone : ∀ b ∈ done, b.observation.isSome = true)
    (ha : a.observation = none)
    (hL : lookupTool reg a.tool = some f)
    (hf : f a.input = Except.error e) :
    executeTools reg turn =
      ({ turn with actions := done ++ { a with observation := some (execFailMsg a.tool e) } :: rest },
        contLine a.tool a.input (execFailMsg a.tool e))
    ∧ execFailMsg a.tool e = "Error executing tool \x27" ++ a.tool ++ "\x27: " ++ e
    ∧ contLine a.tool a.input (execFailMsg a.tool e) ≠ ""
    ∧ (agentRun gE regE [] decNone "q" none none 2).2 = 2
    ∧ (agentRun gE regE [] decNone "q" none none 2).1.final_answer = none
    ∧ ((agentRun gE regE [] decNone "q" none none 2).1.actions.head?).map
        (fun x => x.observation) = some (some (execFailMsg "boom" "kaboom")) := by
  have hskip := execFirst_skip reg done hdone (a :: rest)
  refine ⟨?_, rfl, contLine_ne_empty _ _ _, rfl, rfl, rfl⟩
  simp only [executeTools, hacts, hskip, execFirst, ha, hL, hf]

/-- Parsed first response of the failing-tool scenario. -/
def cturn6 : Turn := parseReact decNone (gE "p")

/-- Witness for C6 at a concrete failing tool. -/
theorem c6_tool_failure_caught_witness :
    executeTools regE cturn6 =
      ({ cturn6 with
          actions :=
            [] ++ (⟨"boom", some (PyInput.raw "xy"), some (execFailMsg "boom" "kaboom")⟩ : PAction) :: [] },
        contLine "boom" (some (PyInput.raw "xy")) (execFailMsg "boom" "kaboom"))
    ∧ execFailMsg "boom" "kaboom" =
        "Error executing tool \x27" ++ "boom" ++ "\x27: " ++ "kaboom" :=
  have h := c6_tool_failure_caught regE cturn6
    [] ⟨"boom", some (PyInput.raw "xy"), none⟩ []
    (fun _ => Except.error "kaboom") "kaboom"
    rfl (by intro b hb; cases hb) rfl rfl rfl
  ⟨h.1, h.2.1⟩

/-! Lemmas about stripping, leading to the characterization of the
`FINAL_ANSWER` extraction. -/

theorem dropWhile_idem (p : Char → Bool) (l : List Char) :
    (l.dropWhile p).dropWhile p = l.dropWhile p := by
  induction l with
  | nil => rfl
  | cons c rest ih =>
    cases hp : p c
    · rw [List.dropWhile_cons_of_neg (by simp [hp]),
        List.dropWhile_cons_of_neg (by simp [hp])]
    · rw [List.dropWhile_cons_of_pos (by simp [hp])]
      exact ih

theorem strip_dropWhile (l : List Char) : strip (l.dropWhile isWS) = strip l := by
  simp only [strip, dropWhile_idem]

theorem strip_concat_ws (u : List Char) (c : Char) (hc : isWS c = true) :
    strip (u ++ [c]) = strip u := by
  simp only [strip]
  rw [List.dropWhile_append]
  cases hd : (u.dropWhile isWS).isEmpty
  · simp only [Bool.false_eq_true, if_false]
    rw [List.reverse_append]
    simp only [List.reverse_cons, List.reverse_nil, List.nil_append, List.singleton_append]
    rw [List.dropWhile_cons_of_pos (by simp [hc])]
  · simp only [if_true]
    have hu : u.dropWhile isWS = [] := by
      cases h : u.dropWhile isWS
      · rfl
      · rw [h] at hd; cases hd
    rw [hu, List.dropWhile_cons_of_pos (by simp [hc])]
    rfl

theorem strip_take_dollarCut (s : List Char) :
    strip (s.take (dollarCut s)) = strip s := by
  cases hr : s.reverse with
  | nil =>
    have hs : s = [] := by
      rw [← s.reverse_reverse, hr]
      rfl
    rw [hs]
    rfl
  | cons c r' =>
    have hs : s = r'.reverse ++ [c] := by
      rw [← s.reverse_reverse, hr, List.reverse_cons]
    rw [hs]
    cases hc : c == '\n'
    · simp only [dollarCut, List.getLast?_concat, hc, Bool.false_eq_true, if_false]
      rw [List.take_length]
    · have hcc : c = '\n' := eq_of_beq hc
      simp only [dollarCut, List.getLast?_concat, hc, if_true]
      have hlen : (r'.reverse ++ [c]).length - 1 = r'.reverse.length := by
        simp [List.length_append]
      rw [hlen, List.take_left]
      rw [strip_concat_ws r'.reverse c (by rw [hcc]; rfl)]

/-- The amended C1 reading of the final-answer extraction, stated in its own
words: take the FIRST occurrence of the `FINAL_ANSWER:` label, keep
everything after it up to the end of the input, and strip it; no occurrence
means no final answer. -/
def finalAnswerFirst (text : String) : Option String :=
  (findAfter labelFINAL text.data).map (fun after => strS (strip after))

/-- Generator that immediately emits two FINAL_ANSWER sections. -/
def gC1 : String → String := fun _ => "FINAL_ANSWER: A\nFINAL_ANSWER: B"

/-- Counterexample to C1 as stated: on an input whose two FINAL_ANSWER
sections have contents "A" and "B", the parser does not return the last
occurrence's content "B" — it returns the text from the first label to the
end of the input. -/
theorem c1_claim_counterexample :
    (parseReact decNone "FINAL_ANSWER: A\nFINAL_ANSWER: B").final_answer ≠ some "B"
    ∧ (parseReact decNone "FINAL_ANSWER: A\nFINAL_ANSWER: B").final_answer =
        some "A\nFINAL_ANSWER: B" :=
  ⟨by decide, rfl⟩

/-- C1 (amended): `final_answer` is always the stripped text extending from
just after the FIRST occurrence of the `FINAL_ANSWER:` label to the end of
the input — when the label occurs more than once this text contains the
later occurrences verbatim instead of selecting the last occurrence's
content — and the orchestrator's RunResult propagates exactly that value
(shown on the concrete two-occurrence generator). -/
theorem c1_final_answer_first_occurrence :
    (∀ (dec : Decoder) (text : String),
      (parseReact dec text).final_answer = finalAnswerFirst text)
    ∧ (agentRun gC1 [] [] decNone "q" none none 10).1.final_answer =
        some "A\nFINAL_ANSWER: B" := by
  constructor
  · intro dec text
    show finalAnswerOf text.data = finalAnswerFirst text
    unfold finalAnswerOf finalAnswerFirst
    cases h : findAfter labelFINAL text.data
    · rfl
    · simp only [Option.map]
      rw [strip_take_dollarCut, strip_dropWhile]
  · rfl

/-- Transcript with one pending action and a FINAL_ANSWER section whose
content strips to the empty string. -/
def cT2 : String := "ACTION: t\nACTION_INPUT: 1\nFINAL_ANSWER:"

/-- Generator contributing nothing further, used by the C2 counterexample. -/
def gC2 : String → String := fun _ => ""

/-- Counterexample to C2 as stated: on `cT2` the parser does set
`final_answer` to the empty string (present, not unset), but the run is NOT
terminal — the orchestrator loop treats the empty string as falsy and,
with a pending action and budget left, performs a further iteration. -/
theorem c2_claim_counterexample :
    (parseReact decNone cT2).final_answer = some ""
    ∧ pendingB (parseReact decNone cT2) = true
    ∧ (runLoop gC2 regW decNone "" 1 1 cT2 (parseReact decNone cT2) 0).2.2 ≠ 0 :=
  ⟨rfl, rfl, by decide⟩

/-- Turn with a nonempty final answer, used by the C2 witness. -/
def cturn2x : Turn := { thinking := [], actions := [], final_answer := some "x", raw_output := "" }

/-- C2 (amended): the parser keeps presence distinct from emptiness —
`final_answer` is set exactly when a `FINAL_ANSWER:` label occurs, even when
the content strips to the empty string — but the orchestrator's loop guard
tests Python truthiness, which conflates the empty string with absence:
with `final_answer = ""`, a pending action and remaining budget the loop
iterates further; the run is terminal only for a nonempty final answer. -/
theorem c2_empty_final_answer_not_terminal :
    (∀ (dec : Decoder) (text : String),
      (parseReact dec text).final_answer.isSome = (findAfter labelFINAL text.data).isSome)
    ∧ (∀ t : Turn, t.final_answer = some "" → ∀ iters maxIter : Nat,
        pendingB t = true → iters < maxIter → loopGuard t iters maxIter = true)
    ∧ (∀ (t : Turn) (s : String), t.final_answer = some s → s ≠ "" →
        ∀ iters maxIter : Nat, loopGuard t iters maxIter = false) := by
  refine ⟨?_, ?_, ?_⟩
  · intro dec text
    show (finalAnswerOf text.data).isSome = (findAfter labelFINAL text.data).isSome
    cases h : findAfter labelFINAL text.data
    · simp [finalAnswerOf, h]
    · simp [finalAnswerOf, h]
  · intro t hfa iters maxIter hp hlt
    simp only [loopGuard, hfa, finalFalsy, pendingB] at *
    simp only [hp, decide_eq_true hlt]
    rfl
  · intro t s hfa hs iters maxIter
    have he : s.isEmpty = false := by
      cases he : s.isEmpty
      · rfl
      · exact absurd ((String.isEmpty_iff s).mp he) hs
    simp only [loopGuard, hfa, finalFalsy, he, Bool.false_and]

/-- Witness for C2 (amended): the guard keeps looping on the concrete
empty-final-answer turn and stops on a nonempty one. -/
theorem c2_empty_final_answer_not_terminal_witness :
    loopGuard (parseReact decNone cT2) 0 1 = true
    ∧ loopGuard cturn2x 0 1 = false :=
  ⟨c2_empty_final_answer_not_terminal.2.1 (parseReact decNone cT2) rfl 0 1 rfl (by decide),
   c2_empty_final_answer_not_terminal.2.2 cturn2x "x" rfl (by decide) 0 1⟩

/-- The loop guard enforces the iteration budget: the loop counter never
exceeds `maxIter`. -/
theorem runLoop_iters_le (g : String → String) (reg : Registry) (dec : Decoder)
    (prompt : String) (maxIter : Nat) :
    ∀ (fuel : Nat) (response : String) (parsed : Turn) (iters : Nat),
      iters ≤ maxIter →
      (runLoop g reg dec prompt maxIter fuel response parsed iters).2.2 ≤ maxIter := by
  intro fuel
  induction fuel with
  | zero =>
    intro response parsed iters h
    rw [runLoop]
    dsimp only
    split
    · split
      · exact h
      · exact h
    · exact h
  | succ f ih =>
    intro response parsed iters h
    rw [runLoop]
    dsimp only
    split
    next hg =>
      split
      · exact h
      · have hlt : iters < maxIter := by
          have hb : decide (iters < maxIter) = true := by
            simp only [loopGuard, Bool.and_eq_true] at hg
            exact hg.1.2
          exact of_decide_eq_true hb
        exact ih _ _ (iters + 1) (Nat.succ_le_of_lt hlt)
    · exact h

/-- Generator that always requests one more tool call and never emits a
`FINAL_ANSWER` section. -/
def gC7 : String → String := fun _ => "ACTION: t\nACTION_INPUT: 1\n"

/-- C7: `gC7` never emits the FINAL_ANSWER label; with `max_iterations = 3`
the orchestrator performs exactly 3 tool-executing iterations on it and
returns a result whose `final_answer` is null; and in general the iteration
count of any run never exceeds its `max_iterations` budget. -/
theorem c7_iteration_budget :
    (∀ p : String, containsSub labelFINAL ((gC7 p).data) = false)
    ∧ (agentRun gC7 regW [] decNone "q" none none 3).2 = 3
    ∧ (agentRun gC7 regW [] decNone "q" none none 3).1.final_answer = none
    ∧ (∀ (g : String → String) (reg : Registry) (defs : List ToolDef) (dec : Decoder)
        (query : String) (hist : Option (List ConvTurn)) (examples : Option (List FewShot))
        (maxIter : Nat),
        (agentRun g reg defs dec query hist examples maxIter).2 ≤ maxIter) := by
  refine ⟨?_, rfl, rfl, ?_⟩
  · intro p
    exact (by decide : containsSub labelFINAL (("ACTION: t\nACTION_INPUT: 1\n" : String)).data = false)
  · intro g reg defs dec query hist examples maxIter
    exact runLoop_iters_le g reg dec _ maxIter maxIter _ _ 0 (Nat.zero_le _)

/-- Subset filtering fails exactly at the first requested name that is not
registered, with the error message built for that name. -/
theorem filterTools_first_missing (defs : List ToolDef) :
    ∀ names : List String, (∃ n ∈ names, lastDef defs n = none) →
      ∃ m, m ∈ names ∧ lastDef defs m = none
        ∧ filterTools defs names = .error (filterErrMsg defs m) := by
  intro names
  induction names with
  | nil =>
    rintro ⟨n, hn, _⟩
    cases hn
  | cons n rest ih =>
    rintro ⟨m0, hm0, hmiss⟩
    cases hLd : lastDef defs n with
    | none =>
      refine ⟨n, List.mem_cons_self n rest, hLd, ?_⟩
      simp only [filterTools, hLd]
    | some d =>
      have hm0' : m0 ∈ rest := by
        cases List.mem_cons.mp hm0 with
        | inl h => rw [h, hLd] at hmiss; cases hmiss
        | inr h => exact h
      obtain ⟨m, hm, hmm, heq⟩ := ih ⟨m0, hm0', hmiss⟩
      refine ⟨m, List.mem_cons_of_mem _ hm, hmm, ?_⟩
      simp only [filterTools, hLd, heq, Except.map]

/-- C8: a run request whose tool subset contains an unregistered name fails
with an error naming the (first) missing tool and enumerating all valid
registered tool names; the failure is the same for every generator and
decoder — no generation call influences it, so it occurs before any
generation call is made for that run. -/
theorem c8_unknown_subset_fails_before_generation (a : Agent) (q : AgentQuery)
    (names : List String)
    (hq : q.toolsFilter = some names)
    (hmiss : ∃ n ∈ names, lastDef a.tool_definitions n = none) :
    ∃ m, m ∈ names ∧ lastDef a.tool_definitions m = none
      ∧ (∀ (g : String → String) (dec : Decoder),
          runAgent g dec a q = .error (filterErrMsg a.tool_definitions m))
      ∧ filterErrMsg a.tool_definitions m =
          "Tool \x27" ++ m ++ "\x27 not found. Available tools: " ++
            String.intercalate ", " (dedupKeys (a.tool_definitions.map (fun d => d.name))) := by
  obtain ⟨m, hm, hmm, heq⟩ := filterTools_first_missing a.tool_definitions names hmiss
  refine ⟨m, hm, hmm, ?_, rfl⟩
  intro g dec
  cases names with
  | nil => cases hm
  | cons n rest =>
    simp only [runAgent, hq, heq]

/-- Agent with the single registered tool "t", used by the C8 witness. -/
def aW8 : Agent := ⟨[("t", fun _ => Except.ok "ok")], [⟨"t", "a tool", [], "out"⟩]⟩

/-- Request asking for the unregistered tool subset \x7b"ghost"\x7d. -/
def qW8 : AgentQuery := ⟨"q", some ["ghost"], none, none⟩

/-- Witness for C8: the concrete bad-subset request fails identically under
a concrete generator, with the expected message. -/
theorem c8_unknown_subset_fails_before_generation_witness :
    runAgent gC2 decNone aW8 qW8 = .error (filterErrMsg aW8.tool_definitions "ghost")
    ∧ filterErrMsg aW8.tool_definitions "ghost" =
        "Tool \x27ghost\x27 not found. Available tools: t" := by
  obtain ⟨m, hm, _, hrun, _⟩ :=
    c8_unknown_subset_fails_before_generation aW8 qW8 ["ghost"] rfl
      ⟨"ghost", by simp, rfl⟩
  have hmg : m = "ghost" := by simpa using hm
  rw [hmg] at hrun
  exact ⟨hrun gC2 decNone, rfl⟩

/-- Executable of the excluded tool in the C10 scenario. -/
def fAlpha : ToolFn := fun _ => Except.ok "ALPHA_RAN"

/-- Executable of the requested tool in the C10 scenario. -/
def fBeta : ToolFn := fun _ => Except.ok "ok"

/-- Schema entry of the excluded tool. -/
def defAlpha : ToolDef := ⟨"alpha", "does alpha", [], "out"⟩

/-- Schema entry of the subset-selected tool. -/
def defBeta : ToolDef := ⟨"beta", "does beta", [], "out"⟩

/-- Agent registering both tools. -/
def agentX : Agent := ⟨[("alpha", fAlpha), ("beta", fBeta)], [defAlpha, defBeta]⟩

/-- Generator that names the excluded tool "alpha" in its first output and
finishes once an observation containing alpha's result is fed back. -/
def gX : String → String := fun p =>
  if containsSub ("ALPHA_RAN".data) p.data then "FINAL_ANSWER: done"
  else "ACTION: alpha\nACTION_INPUT: 1\n"

/-- Request that restricts the tool subset to "beta" only. -/
def qX : AgentQuery := ⟨"q", some ["beta"], none, none⟩

/-- First generated response of the C10 scenario (the short seed prompt
"P" does not contain alpha's output yet). -/
def rX : String := gX "P"

/-- C10: subset filtering replaces only the schema list handed to the prompt
builder — `runAgent` invokes the run with the agent's name-to-executable
mapping `a.tools` unchanged — so a registered tool excluded from the subset
is still looked up and executed when the generated text names it: in the
concrete scenario the filter selects only "beta", the generator emits
`ACTION: alpha`, and the orchestrator loop over the unchanged mapping
executes alpha, stores its output as the first action's observation, and
finishes with the final answer the generator produces after seeing it. -/
theorem c10_filter_restricts_schema_only :
    (∀ (g : String → String) (dec : Decoder) (a : Agent) (q : AgentQuery)
        (n : String) (rest : List String) (filtered : List ToolDef),
        q.toolsFilter = some (n :: rest) →
        filterTools a.tool_definitions (n :: rest) = .ok filtered →
        runAgent g dec a q =
          .ok (agentRun g a.tools filtered dec q.query q.history q.examples 10))
    ∧ filterTools agentX.tool_definitions ["beta"] = .ok [defBeta]
    ∧ lastDef [defBeta] "alpha" = none
    ∧ lookupTool agentX.tools "alpha" = some fAlpha
    ∧ ((runLoop gX agentX.tools decNone "P" 10 10 rX (parseReact decNone rX) 0).1.actions.head?).map
        (fun x => x.observation) = some (some "ALPHA_RAN")
    ∧ (runLoop gX agentX.tools decNone "P" 10 10 rX (parseReact decNone rX) 0).1.final_answer =
        some "done" := by
  refine ⟨?_, rfl, rfl, rfl, rfl, rfl⟩
  intro g dec a q n rest filtered hq hflt
  simp only [runAgent, hq, hflt]

/-- Witness for C10: the structural conjunct applied at the concrete
filtered request. -/
theorem c10_filter_restricts_schema_only_witness :
    runAgent gX decNone agentX qX =
      .ok (agentRun gX agentX.tools [defBeta] decNone "q" none none 10) :=
  c10_filter_restricts_schema_only.1 gX decNone agentX qX "beta" [] [defBeta] rfl rfl

end LlmAgent
